import Mathlib

/-!
Verification of the message-generation core of the airport disruption
messenger (`airport_messenger_app.py`).

The embedding models the Python dictionaries as association lists over
`String` keys, the event record (a Python dict whose keys may be absent or
hold `None`/empty values) as a structure of `Option` fields, Python's
falsy-coalescing `or` as `orFalsy`, Python's `str.strip` as `pyStrip`, and
the output-dictionary assignment `outputs[a] = msg` as `dictSet` (update in
place when the key exists, append otherwise).  The generator
`generate_messages` reads the module-level constant `RULES`; it is embedded
as `generate_messages_impl` parameterised by the rule table, applied to
`RULES`.
-/

/-- Association-list lookup with default, embedding Python `d.get(k, default)`. -/
def dget {α : Type} (d : List (String × α)) (k : String) (dflt : α) : α :=
  match d.find? (fun p => p.1 == k) with
  | some p => p.2
  | none => dflt

/-- Entry of `RULES["event_types"]`: a dict with the single key `"phrases"`
mapping audience name to phrase list (source lines 12-43). -/
abbrev TypeEntry := List (String × List (String × List String))

/-- The static rule table `RULES` (source lines 9-44): the unenforced
`forbidden` word list and the per-event-type phrase dictionaries. -/
structure RulesTable where
  forbidden : List String
  event_types : List (String × TypeEntry)

/-- The module-level constant `RULES` of the source, lines 9-44. -/
def RULES : RulesTable :=
  { forbidden := ["panic", "blame", "speculation",
                  "jargon for passengers: METAR, TAF, NOTAM"],
    event_types :=
      [("weather",
        [("phrases",
          [("passenger",
            ["due to adverse weather",
             "your safety is our priority",
             "we appreciate your patience"]),
           ("pilot",
            ["expect delay due to weather in departure/arrival sector",
             "monitor ATC advisory"]),
           ("staff",
            ["coordinate gate and crew availability",
             "update displays and inform gate agents"])])]),
       ("runway",
        [("phrases",
          [("passenger", ["runway availability constraints"]),
           ("pilot", ["runway closure/restriction in effect"]),
           ("staff", ["redirect ground operations"])])]),
       ("technical",
        [("phrases",
          [("passenger",
            ["aircraft requires a technical inspection", "for your safety"]),
           ("pilot", ["maintenance in progress; stand by for new ETD"]),
           ("staff", ["dispatch maintenance team and prepare equipment"])])])] }

/-- `SEVERITIES` (source line 46). -/
def SEVERITIES : List String := ["low", "medium", "high", "critical"]

/-- `EVENT_TYPES = list(RULES["event_types"].keys())` (source line 47). -/
def EVENT_TYPES : List String := RULES.event_types.map Prod.fst

/-- `_safe(lst, idx, default)` (source lines 49-53): index-safe list access
returning `default` out of range.  The generator only calls it at the
non-negative indices 0, 1, 2, so the index is a `Nat`.  The source gives the
`default` parameter the default value `""`; call sites here always pass the
default explicitly. -/
def _safe (lst : List String) (idx : Nat) (dflt : String) : String :=
  (lst.get? idx).getD dflt

/-- The event record passed to `generate_messages`: a Python dict whose keys
the generator reads with `.get`.  `none` models both an absent key and a key
present with value `None` (the two are indistinguishable to `event.get(k)`);
for `audiences`, which is read as `event.get("audiences", [...])`, `none`
models only an absent key. -/
structure Event where
  event_type : Option String
  severity : Option String
  flight_no : Option String
  origin : Option String
  destination : Option String
  eta_change_minutes : Option Int
  gate : Option String
  runway : Option String
  notes : Option String
  audiences : Option (List String)
deriving DecidableEq

/-- Python `x or d` for an optional string field: `None` and `""` are falsy
and fall back to `d`. -/
def orFalsy (o : Option String) (d : String) : String :=
  match o with
  | none => d
  | some s => if s = "" then d else s

/-- `etype = event.get("event_type", "")` (source line 59). -/
def etypeOf (e : Event) : String := e.event_type.getD ""

/-- `phrases = RULES["event_types"].get(etype, {}).get("phrases", {})`
(source line 60), parameterised by the rule table. -/
def phrasesOf (rules : RulesTable) (e : Event) : List (String × List String) :=
  dget (dget rules.event_types (etypeOf e) []) "phrases" []

/-- `passenger_p = phrases.get("passenger", [])` (source line 61). -/
def passenger_p (rules : RulesTable) (e : Event) : List String :=
  dget (phrasesOf rules e) "passenger" []

/-- `pilot_p = phrases.get("pilot", [])` (source line 62). -/
def pilot_p (rules : RulesTable) (e : Event) : List String :=
  dget (phrasesOf rules e) "pilot" []

/-- `staff_p = phrases.get("staff", [])` (source line 63). -/
def staff_p (rules : RulesTable) (e : Event) : List String :=
  dget (phrasesOf rules e) "staff" []

/-- `flight_no = event.get("flight_no") or "N/A"` (source line 65). -/
def flight_noStr (e : Event) : String := orFalsy e.flight_no "N/A"

/-- `dest = event.get("destination") or "your destination"` (source line 66). -/
def destStr (e : Event) : String := orFalsy e.destination "your destination"

/-- `gate = event.get("gate") or "the assigned gate"` (source line 67). -/
def gateStr (e : Event) : String := orFalsy e.gate "the assigned gate"

/-- `runway = event.get("runway") or "TBD"` (source line 68). -/
def runwayStr (e : Event) : String := orFalsy e.runway "TBD"

/-- `severity = event.get("severity") or "medium"` (source line 69). -/
def severityStr (e : Event) : String := orFalsy e.severity "medium"

/-- `eta_str = f"{eta} minutes" if eta else "TBD"` (source lines 70-71):
`None` and `0` are falsy and render as `"TBD"`; any other integer renders
as its decimal string followed by `" minutes"`. -/
def eta_strOf (e : Event) : String :=
  match e.eta_change_minutes with
  | none => "TBD"
  | some n => if n = 0 then "TBD" else toString n ++ " minutes"

/-- `notes = event.get("notes") or "N/A"` (source line 72). -/
def notesStr (e : Event) : String := orFalsy e.notes "N/A"

/-- Python's whitespace set for `str.strip` restricted to the characters
that can occur here (the ASCII whitespace characters). -/
def isPySpace (c : Char) : Bool :=
  c == ' ' || c == '\t' || c == '\n' || c == '\r' || c == '\x0b' || c == '\x0c'

/-- Strip leading and trailing whitespace from a character list. -/
def stripChars (l : List Char) : List Char :=
  ((l.dropWhile isPySpace).reverse.dropWhile isPySpace).reverse

/-- Python `s.strip()`. -/
def pyStrip (s : String) : String := String.mk (stripChars s.data)

/-- The concatenation inside the parentheses building `passenger_msg`
(source lines 74-80), before `.strip()`.  The character sequence is exactly
the source's f-string segments in order; parenthesisation groups the
leading and trailing literal for the strip analysis. -/
def passenger_body (rules : RulesTable) (e : Event) : String :=
  "Attention passengers: " ++
    (_safe (passenger_p rules e) 0 "an operational delay" ++ " " ++
     "affecting flight " ++ flight_noStr e ++ " to " ++ destStr e ++ ". " ++
     "Estimated delay: " ++ eta_strOf e ++ ". " ++
     _safe (passenger_p rules e) 1 "" ++ ". " ++
     _safe (passenger_p rules e) 2 "" ++ " " ++
     "Please remain near gate " ++ gateStr e) ++
  " for updates. Thank you for your understanding."

/-- `passenger_msg` (source lines 74-80). -/
def passenger_msg (rules : RulesTable) (e : Event) : String :=
  pyStrip (passenger_body rules e)

/-- The concatenation inside the parentheses building `pilot_msg`
(source lines 82-87), before `.strip()`. -/
def pilot_body (rules : RulesTable) (e : Event) : String :=
  _safe (pilot_p rules e) 0 "operational delay in effect" ++
    (" for " ++ flight_noStr e ++ ". " ++
     "Severity: " ++ severityStr e ++ ". " ++
     _safe (pilot_p rules e) 1 "" ++ " " ++
     "Runway: " ++ runwayStr e ++ ". Gate: " ++ gateStr e ++
     ". ETA change: " ++ eta_strOf e ++ ". " ++
     "Notes: " ++ notesStr e) ++
  "."

/-- `pilot_msg` (source lines 82-87). -/
def pilot_msg (rules : RulesTable) (e : Event) : String :=
  pyStrip (pilot_body rules e)

/-- The concatenation inside the parentheses building `staff_msg`
(source lines 89-95), before `.strip()`. -/
def staff_body (rules : RulesTable) (e : Event) : String :=
  "Action required: event=" ++
    (etypeOf e ++ ", severity=" ++ severityStr e ++
     " for flight " ++ flight_noStr e ++ ". " ++
     "- Gate: " ++ gateStr e ++ ", Runway: " ++ runwayStr e ++
     ", ETA change: " ++ eta_strOf e ++ ". " ++
     "- Tasks: " ++ _safe (staff_p rules e) 0 "coordinate impacted teams" ++
     ", " ++ _safe (staff_p rules e) 1 "notify affected parties" ++ ". ") ++
  "- Comms: update FIDS, inform AOCC, and document actions in the log."

/-- `staff_msg` (source lines 89-95). -/
def staff_msg (rules : RulesTable) (e : Event) : String :=
  pyStrip (staff_body rules e)

/-- Python dict assignment `outputs[a] = msg`: update the entry in place
when the key is already present, append a new entry otherwise. -/
def dictSet (d : List (String × String)) (k v : String) : List (String × String) :=
  if d.any (fun p => p.1 == k) then
    d.map (fun p => if p.1 == k then (k, v) else p)
  else
    d ++ [(k, v)]

/-- One iteration of the output loop (source lines 98-104). -/
def audienceStep (rules : RulesTable) (e : Event)
    (outputs : List (String × String)) (a : String) : List (String × String) :=
  if a = "passenger" then dictSet outputs a (passenger_msg rules e)
  else if a = "pilot" then dictSet outputs a (pilot_msg rules e)
  else if a = "staff" then dictSet outputs a (staff_msg rules e)
  else outputs

/-- `generate_messages` (source lines 55-105), parameterised by the rule
table it reads: the output dict is built by folding the assignment loop over
`event.get("audiences", ["passenger", "pilot", "staff"])`. -/
def generate_messages_impl (rules : RulesTable) (event : Event) :
    List (String × String) :=
  (event.audiences.getD ["passenger", "pilot", "staff"]).foldl
    (audienceStep rules event) []

/-- `generate_messages(event)` as in the source: the implementation applied
to the module-level `RULES`. -/
def generate_messages (event : Event) : List (String × String) :=
  generate_messages_impl RULES event

/-- The message the source computes for a given audience name. -/
def audienceMsg (rules : RulesTable) (e : Event) (a : String) : String :=
  if a = "passenger" then passenger_msg rules e
  else if a = "pilot" then pilot_msg rules e
  else staff_msg rules e

/-- A string is one of the three audience names. -/
def isAud (a : String) : Prop :=
  a = "passenger" ∨ a = "pilot" ∨ a = "staff"

instance (a : String) : Decidable (isAud a) := by
  unfold isAud; infer_instance

/-- Test of a list of characters starting with another. -/
def startsWithL : List Char → List Char → Bool
  | _, [] => true
  | [], _ :: _ => false
  | a :: s, b :: t => a == b && startsWithL s t

/-- Test of a list of characters occurring contiguously inside another. -/
def containsL : List Char → List Char → Bool
  | [], t => startsWithL [] t
  | c :: s, t => startsWithL (c :: s) t || containsL s t

/-- `t` occurs as a contiguous substring of `s`. -/
def strContains (s t : String) : Bool := containsL s.data t.data

/-- First character of a string exists and is not whitespace. -/
def headOk (s : String) : Bool :=
  match s.data with
  | [] => false
  | c :: _ => !(isPySpace c)

/-- Last character of a string exists and is not whitespace. -/
def tailOk (s : String) : Bool :=
  match s.data.reverse with
  | [] => false
  | d :: _ => !(isPySpace d)


/-- State-passing embedding of one call to `generate_messages`: the Python
function receives the event dict and reads the module-level `RULES`; its
body (source lines 55-105) contains no assignment to either, so the call
returns them alongside the fresh output dict. -/
def generate_call (rules : RulesTable) (event : Event) :
    List (String × String) × RulesTable × Event :=
  (generate_messages_impl rules event, rules, event)

/-- The example event of the specification: a weather disruption for flight
AI-320 to BOM at gate A7 with a 45-minute ETA change, passenger audience
only. -/
def ev7 : Event :=
  ⟨some "weather", none, some "AI-320", none, some "BOM", some 45, some "A7",
   none, none, some ["passenger"]⟩

/-- An event whose `audiences` key is present and holds the empty list. -/
def evEmptyAud : Event :=
  ⟨some "weather", none, none, none, none, none, none, none, none, some []⟩

/-- An event requesting only the passenger audience. -/
def evOnePass : Event :=
  ⟨some "weather", none, none, none, none, none, none, none, none,
   some ["passenger"]⟩

/-- An event with no `eta_change_minutes`. -/
def evEtaW : Event :=
  ⟨some "runway", none, none, none, none, none, none, none, none, none⟩

/-- An event with a positive `eta_change_minutes`. -/
def evEtaPosW : Event :=
  ⟨some "technical", none, none, none, none, some 7, none, none, none, none⟩

/-- An event with the unconfigured event type "volcano". -/
def evUnknown : Event :=
  ⟨some "volcano", none, none, none, none, none, none, none, none, none⟩

/-- An event with no `event_type` key at all. -/
def evUnknownAbsent : Event :=
  ⟨none, none, none, none, none, none, none, none, none, none⟩

/-- A runway event with flight number QF-7. -/
def evFlightW : Event :=
  ⟨some "runway", none, some "QF-7", none, none, none, none, none, none, none⟩

/-- An event with every optional field absent. -/
def evNoneW : Event :=
  ⟨some "weather", none, none, none, none, none, none, none, none, none⟩

/-- A small concrete event. -/
def evDetW : Event :=
  ⟨some "technical", some "high", some "LH-99", none, none, some 10, none,
   none, none, none⟩

/-- An event whose audiences list repeats "staff" and contains a junk
entry. -/
def evStaffW : Event :=
  ⟨some "weather", none, none, none, none, none, none, none, none,
   some ["staff", "bogus", "staff"]⟩

/-- Every list starts with the empty list. -/
lemma startsWithL_nil (s : List Char) : startsWithL s [] = true := by
  cases s <;> rfl

/-- A list starts with its own prefix. -/
lemma startsWithL_append (t r : List Char) : startsWithL (t ++ r) t = true := by
  induction t with
  | nil => exact startsWithL_nil r
  | cons c t ih => simp [startsWithL, ih]

/-- Starting-with is stable under extending the larger list on the right. -/
lemma startsWithL_ext : ∀ {t s : List Char} (b : List Char),
    startsWithL s t = true → startsWithL (s ++ b) t = true := by
  intro t
  induction t with
  | nil => intro s b _; exact startsWithL_nil _
  | cons c t ih =>
    intro s b h
    cases s with
    | nil => simp [startsWithL] at h
    | cons a s' =>
      simp only [List.cons_append, startsWithL, Bool.and_eq_true] at h ⊢
      exact ⟨h.1, ih b h.2⟩

/-- The empty list occurs in every list. -/
lemma containsL_nil (s : List Char) : containsL s [] = true := by
  cases s with
  | nil => rfl
  | cons c s => simp [containsL, startsWithL_nil]

/-- A list occurs at the start of itself followed by anything. -/
lemma containsL_here (t r : List Char) : containsL (t ++ r) t = true := by
  cases t with
  | nil => exact containsL_nil r
  | cons c t' =>
    rw [List.cons_append]
    simp only [containsL, Bool.or_eq_true]
    left
    have h := startsWithL_append (c :: t') r
    rwa [List.cons_append] at h

/-- Occurrence is stable under prepending. -/
lemma containsL_skip (x : List Char) {s t : List Char}
    (h : containsL s t = true) : containsL (x ++ s) t = true := by
  induction x with
  | nil => simpa using h
  | cons c x' ih =>
    rw [List.cons_append]
    simp only [containsL, Bool.or_eq_true]
    right
    exact ih

/-- Occurrence is stable under appending. -/
lemma containsL_ext {s t : List Char} (b : List Char)
    (h : containsL s t = true) : containsL (s ++ b) t = true := by
  induction s with
  | nil =>
    cases t with
    | nil => exact containsL_nil b
    | cons c t' => simp [containsL, startsWithL] at h
  | cons a s' ih =>
    rw [List.cons_append]
    simp only [containsL, Bool.or_eq_true] at h ⊢
    rcases h with h | h
    · left
      have h2 := startsWithL_ext b h
      rwa [List.cons_append] at h2
    · right
      exact ih h

/-- Every string contains itself. -/
lemma strContains_refl (t : String) : strContains t t = true := by
  unfold strContains
  have h := containsL_here t.data []
  simpa using h

/-- Containment is stable under prepending a string. -/
lemma strContains_left (a : String) {s t : String}
    (h : strContains s t = true) : strContains (a ++ s) t = true := by
  unfold strContains at *
  rw [String.data_append]
  exact containsL_skip a.data h

/-- Containment is stable under appending a string. -/
lemma strContains_ext (b : String) {s t : String}
    (h : strContains s t = true) : strContains (s ++ b) t = true := by
  unfold strContains at *
  rw [String.data_append]
  exact containsL_ext b.data h

/-- Dropping while a predicate fails at the head drops nothing. -/
lemma dropWhile_cons_false {c : Char} {l : List Char} (h : isPySpace c = false) :
    List.dropWhile isPySpace (c :: l) = c :: l := by
  simp [List.dropWhile_cons, h]

/-- Unfolding of `headOk`. -/
lemma headOk_spec {s : String} (h : headOk s = true) :
    ∃ c m, s.data = c :: m ∧ isPySpace c = false := by
  unfold headOk at h
  rcases hd : s.data with _ | ⟨c, m⟩
  · rw [hd] at h
    simp at h
  · rw [hd] at h
    refine ⟨c, m, rfl, ?_⟩
    simpa using h

/-- Unfolding of `tailOk`. -/
lemma tailOk_spec {s : String} (h : tailOk s = true) :
    ∃ m d, s.data = m ++ [d] ∧ isPySpace d = false := by
  unfold tailOk at h
  rcases hd : s.data.reverse with _ | ⟨d, r⟩
  · rw [hd] at h
    simp at h
  · rw [hd] at h
    refine ⟨r.reverse, d, ?_, by simpa using h⟩
    have h2 : s.data.reverse.reverse = (d :: r).reverse := by rw [hd]
    rw [List.reverse_reverse] at h2
    rw [h2, List.reverse_cons]

/-- Stripping a list that starts and ends with non-whitespace is the identity. -/
lemma stripChars_eq_self {l : List Char}
    (h1 : ∃ c m, l = c :: m ∧ isPySpace c = false)
    (h2 : ∃ m d, l = m ++ [d] ∧ isPySpace d = false) : stripChars l = l := by
  obtain ⟨c, m, hl, hc⟩ := h1
  obtain ⟨m2, d, hl2, hd⟩ := h2
  unfold stripChars
  rw [hl, dropWhile_cons_false hc, ← hl, hl2]
  rw [List.reverse_append, List.reverse_singleton, List.singleton_append]
  rw [dropWhile_cons_false hd]
  rw [List.reverse_cons, List.reverse_reverse]

/-- Rebuilding a string from its characters is the identity. -/
lemma mk_data (s : String) : String.mk s.data = s := by
  cases s
  rfl

/-- A nonempty-headed string stays nonempty-headed under appending. -/
lemma headOk_append (x y : String) (h : headOk x = true) :
    headOk (x ++ y) = true := by
  obtain ⟨c, m, hd, hc⟩ := headOk_spec h
  unfold headOk
  rw [String.data_append, hd]
  simp [hc]

/-- Python `.strip()` is the identity on a concatenation whose first string
starts with non-whitespace and whose last string ends with non-whitespace. -/
lemma pyStrip_wrap (a m b : String) (ha : headOk a = true) (hb : tailOk b = true) :
    pyStrip (a ++ m ++ b) = a ++ m ++ b := by
  obtain ⟨c, la, hca, hc⟩ := headOk_spec ha
  obtain ⟨mb, d, hdb, hd⟩ := tailOk_spec hb
  have h1 : ∃ c2 m2, (a ++ m ++ b).data = c2 :: m2 ∧ isPySpace c2 = false := by
    refine ⟨c, la ++ m.data ++ b.data, ?_, hc⟩
    rw [String.data_append, String.data_append, hca]
    simp [List.append_assoc]
  have h2 : ∃ m2 d2, (a ++ m ++ b).data = m2 ++ [d2] ∧ isPySpace d2 = false := by
    refine ⟨a.data ++ m.data ++ mb, d, ?_, hd⟩
    rw [String.data_append, String.data_append, hdb]
    simp [List.append_assoc]
  unfold pyStrip
  rw [stripChars_eq_self h1 h2, mk_data]

/-- A string whose first character exists is not the empty string. -/
lemma ne_empty_of_headOk {s : String} (h : headOk s = true) : s ≠ "" := by
  obtain ⟨c, m, hd, _⟩ := headOk_spec h
  intro he
  rw [he] at hd
  exact List.noConfusion hd

/-- Looking up an unconfigured event type in `RULES["event_types"]` yields
the empty dict. -/
lemma dget_RULES_none {t : String} (h1 : t ≠ "weather") (h2 : t ≠ "runway")
    (h3 : t ≠ "technical") : dget RULES.event_types t ([] : TypeEntry) = [] := by
  have e1 : ("weather" == t) = false := beq_eq_false_iff_ne.mpr (Ne.symm h1)
  have e2 : ("runway" == t) = false := beq_eq_false_iff_ne.mpr (Ne.symm h2)
  have e3 : ("technical" == t) = false := beq_eq_false_iff_ne.mpr (Ne.symm h3)
  simp [dget, RULES, List.find?, e1, e2, e3]

/-- The pilot phrase list is one of the three configured lists or empty. -/
lemma pilot_p_cases (e : Event) :
    pilot_p RULES e =
      ["expect delay due to weather in departure/arrival sector",
       "monitor ATC advisory"] ∨
    pilot_p RULES e = ["runway closure/restriction in effect"] ∨
    pilot_p RULES e = ["maintenance in progress; stand by for new ETD"] ∨
    pilot_p RULES e = [] := by
  by_cases h1 : etypeOf e = "weather"
  · left
    unfold pilot_p phrasesOf
    rw [h1]
    rfl
  by_cases h2 : etypeOf e = "runway"
  · right; left
    unfold pilot_p phrasesOf
    rw [h2]
    rfl
  by_cases h3 : etypeOf e = "technical"
  · right; right; left
    unfold pilot_p phrasesOf
    rw [h3]
    rfl
  · right; right; right
    unfold pilot_p phrasesOf
    rw [dget_RULES_none h1 h2 h3]
    rfl

/-- The first pilot phrase or its fallback starts with non-whitespace. -/
lemma pilot_headOk (e : Event) :
    headOk (_safe (pilot_p RULES e) 0 "operational delay in effect") = true := by
  rcases pilot_p_cases e with h | h | h | h <;> rw [h] <;> decide

/-- Stripping is the identity on the passenger message. -/
lemma passenger_msg_eq (rules : RulesTable) (e : Event) :
    passenger_msg rules e = passenger_body rules e := by
  unfold passenger_msg passenger_body
  exact pyStrip_wrap _ _ _ (by decide) (by decide)

/-- Stripping is the identity on the pilot message under the source's rule
table. -/
lemma pilot_msg_eq (e : Event) :
    pilot_msg RULES e = pilot_body RULES e := by
  unfold pilot_msg pilot_body
  exact pyStrip_wrap _ _ _ (pilot_headOk e) (by decide)

/-- Stripping is the identity on the staff message. -/
lemma staff_msg_eq (rules : RulesTable) (e : Event) :
    staff_msg rules e = staff_body rules e := by
  unfold staff_msg staff_body
  exact pyStrip_wrap _ _ _ (by decide) (by decide)

/-- The passenger message embeds the rendered ETA text. -/
lemma passenger_contains_eta (rules : RulesTable) (e : Event) :
    strContains (passenger_body rules e) (eta_strOf e) = true := by
  unfold passenger_body
  apply strContains_ext
  apply strContains_left
  iterate 7 apply strContains_ext
  apply strContains_left
  exact strContains_refl _

/-- The pilot message embeds the rendered ETA text. -/
lemma pilot_contains_eta (rules : RulesTable) (e : Event) :
    strContains (pilot_body rules e) (eta_strOf e) = true := by
  unfold pilot_body
  apply strContains_ext
  apply strContains_left
  iterate 3 apply strContains_ext
  apply strContains_left
  exact strContains_refl _

/-- The staff message embeds the rendered ETA text. -/
lemma staff_contains_eta (rules : RulesTable) (e : Event) :
    strContains (staff_body rules e) (eta_strOf e) = true := by
  unfold staff_body
  apply strContains_ext
  apply strContains_left
  iterate 6 apply strContains_ext
  apply strContains_left
  exact strContains_refl _

/-- The passenger message embeds the rendered flight number. -/
lemma passenger_contains_flight (rules : RulesTable) (e : Event) :
    strContains (passenger_body rules e) (flight_noStr e) = true := by
  unfold passenger_body
  apply strContains_ext
  apply strContains_left
  iterate 12 apply strContains_ext
  apply strContains_left
  exact strContains_refl _

/-- The pilot message embeds the rendered flight number. -/
lemma pilot_contains_flight (rules : RulesTable) (e : Event) :
    strContains (pilot_body rules e) (flight_noStr e) = true := by
  unfold pilot_body
  apply strContains_ext
  apply strContains_left
  iterate 15 apply strContains_ext
  apply strContains_left
  exact strContains_refl _

/-- The staff message embeds the rendered flight number. -/
lemma staff_contains_flight (rules : RulesTable) (e : Event) :
    strContains (staff_body rules e) (flight_noStr e) = true := by
  unfold staff_body
  apply strContains_ext
  apply strContains_left
  iterate 13 apply strContains_ext
  apply strContains_left
  exact strContains_refl _

/-- A falsy ETA field renders as `"TBD"`. -/
lemma eta_strOf_tbd {e : Event}
    (h : e.eta_change_minutes = none ∨ e.eta_change_minutes = some 0) :
    eta_strOf e = "TBD" := by
  rcases h with h | h <;> simp [eta_strOf, h]

/-- A nonzero ETA field renders as its decimal text and `" minutes"`. -/
lemma eta_strOf_val {e : Event} {n : Int} (h : e.eta_change_minutes = some n)
    (hn : n ≠ 0) : eta_strOf e = toString n ++ " minutes" := by
  simp [eta_strOf, h, hn]

/-- A truthy optional string passes through `or`. -/
lemma orFalsy_some {s : String} (d : String) (h : s ≠ "") :
    orFalsy (some s) d = s := by
  simp [orFalsy, h]

/-- A falsy optional string falls back to the default. -/
lemma orFalsy_dflt {o : Option String} (h : o = none ∨ o = some "")
    (d : String) : orFalsy o d = d := by
  rcases h with h | h <;> simp [orFalsy, h]

/-- The passenger message is never the empty string. -/
lemma passenger_msg_ne (rules : RulesTable) (e : Event) :
    passenger_msg rules e ≠ "" := by
  apply ne_empty_of_headOk
  rw [passenger_msg_eq]
  unfold passenger_body
  apply headOk_append
  apply headOk_append
  decide

/-- The pilot message is never the empty string under the source's rule
table. -/
lemma pilot_msg_ne (e : Event) : pilot_msg RULES e ≠ "" := by
  apply ne_empty_of_headOk
  rw [pilot_msg_eq]
  unfold pilot_body
  apply headOk_append
  apply headOk_append
  exact pilot_headOk e

/-- The staff message is never the empty string. -/
lemma staff_msg_ne (rules : RulesTable) (e : Event) :
    staff_msg rules e ≠ "" := by
  apply ne_empty_of_headOk
  rw [staff_msg_eq]
  unfold staff_body
  apply headOk_append
  apply headOk_append
  decide

/-- Updating an existing key in place leaves the key list unchanged. -/
lemma keys_map_set (d : List (String × String)) (k v : String) :
    (d.map (fun p => if p.1 == k then (k, v) else p)).map Prod.fst =
      d.map Prod.fst := by
  induction d with
  | nil => rfl
  | cons p d ih =>
    simp only [List.map_cons]
    by_cases hpk : (p.1 == k) = true
    · rw [if_pos hpk, ih]
      have hk : p.1 = k := eq_of_beq hpk
      rw [hk]
    · rw [if_neg hpk, ih]

/-- Key membership after a dict assignment. -/
lemma mem_keys_dictSet (d : List (String × String)) (k v a : String) :
    a ∈ (dictSet d k v).map Prod.fst ↔ a ∈ d.map Prod.fst ∨ a = k := by
  unfold dictSet
  by_cases hAny : d.any (fun p => p.1 == k) = true
  · rw [if_pos hAny, keys_map_set]
    have hk : k ∈ d.map Prod.fst := by
      obtain ⟨p, hp, hpk⟩ := List.any_eq_true.mp hAny
      have hpe : p.1 = k := by simpa using hpk
      exact hpe ▸ List.mem_map_of_mem Prod.fst hp
    constructor
    · exact Or.inl
    · rintro (h | rfl)
      · exact h
      · exact hk
  · rw [if_neg hAny]
    simp [List.map_append]

/-- A dict assignment preserves distinctness of keys. -/
lemma nodup_keys_dictSet (d : List (String × String)) (k v : String)
    (h : (d.map Prod.fst).Nodup) : ((dictSet d k v).map Prod.fst).Nodup := by
  unfold dictSet
  by_cases hAny : d.any (fun p => p.1 == k) = true
  · rw [if_pos hAny, keys_map_set]
    exact h
  · rw [if_neg hAny, List.map_append]
    have hk : k ∉ d.map Prod.fst := by
      intro hmem
      obtain ⟨p, hp, hfst⟩ := List.mem_map.mp hmem
      have hpk : (p.1 == k) = true := by simp [hfst]
      exact hAny (List.any_eq_true.mpr ⟨p, hp, hpk⟩)
    rw [List.nodup_append]
    refine ⟨h, List.nodup_singleton _, ?_⟩
    intro x hx hxk
    simp only [List.map_cons, List.map_nil, List.mem_singleton] at hxk
    subst hxk
    exact hk hx

/-- Every entry after a dict assignment is an old entry or the new pair. -/
lemma mem_dictSet_cases {d : List (String × String)} {k v : String}
    {q : String × String} (hq : q ∈ dictSet d k v) : q ∈ d ∨ q = (k, v) := by
  unfold dictSet at hq
  by_cases hAny : d.any (fun p => p.1 == k) = true
  · rw [if_pos hAny] at hq
    obtain ⟨p, hp, hfq⟩ := List.mem_map.mp hq
    by_cases hpk : (p.1 == k) = true
    · right
      rw [← hfq]
      simp [hpk]
    · left
      rw [← hfq]
      simpa [hpk] using hp
  · rw [if_neg hAny] at hq
    rcases List.mem_append.mp hq with h | h
    · exact Or.inl h
    · right
      simpa using h

/-- Key membership in the folded output dict: a key is in the result exactly
when it was in the accumulator or is an audience name listed in the
remaining audiences. -/
lemma foldl_mem_keys (rules : RulesTable) (e : Event) :
    ∀ (l : List String) (acc : List (String × String)) (a : String),
      a ∈ ((l.foldl (audienceStep rules e) acc).map Prod.fst) ↔
        a ∈ acc.map Prod.fst ∨ (a ∈ l ∧ isAud a) := by
  intro l
  induction l with
  | nil =>
    intro acc a
    simp
  | cons b t ih =>
    intro acc a
    rw [List.foldl_cons, ih]
    by_cases hb1 : b = "passenger"
    · subst hb1
      have hstep : audienceStep rules e acc "passenger" =
          dictSet acc "passenger" (passenger_msg rules e) := by
        unfold audienceStep
        rw [if_pos rfl]
      rw [hstep, mem_keys_dictSet]
      simp only [List.mem_cons]
      constructor
      · rintro ((h | h) | ⟨h1, h2⟩)
        · exact Or.inl h
        · exact Or.inr ⟨Or.inl h, Or.inl h⟩
        · exact Or.inr ⟨Or.inr h1, h2⟩
      · rintro (h | ⟨h1 | h1, h2⟩)
        · exact Or.inl (Or.inl h)
        · exact Or.inl (Or.inr h1)
        · exact Or.inr ⟨h1, h2⟩
    by_cases hb2 : b = "pilot"
    · subst hb2
      have hstep : audienceStep rules e acc "pilot" =
          dictSet acc "pilot" (pilot_msg rules e) := by
        unfold audienceStep
        rw [if_neg hb1, if_pos rfl]
      rw [hstep, mem_keys_dictSet]
      simp only [List.mem_cons]
      constructor
      · rintro ((h | h) | ⟨h1, h2⟩)
        · exact Or.inl h
        · exact Or.inr ⟨Or.inl h, Or.inr (Or.inl h)⟩
        · exact Or.inr ⟨Or.inr h1, h2⟩
      · rintro (h | ⟨h1 | h1, h2⟩)
        · exact Or.inl (Or.inl h)
        · exact Or.inl (Or.inr h1)
        · exact Or.inr ⟨h1, h2⟩
    by_cases hb3 : b = "staff"
    · subst hb3
      have hstep : audienceStep rules e acc "staff" =
          dictSet acc "staff" (staff_msg rules e) := by
        unfold audienceStep
        rw [if_neg hb1, if_neg hb2, if_pos rfl]
      rw [hstep, mem_keys_dictSet]
      simp only [List.mem_cons]
      constructor
      · rintro ((h | h) | ⟨h1, h2⟩)
        · exact Or.inl h
        · exact Or.inr ⟨Or.inl h, Or.inr (Or.inr h)⟩
        · exact Or.inr ⟨Or.inr h1, h2⟩
      · rintro (h | ⟨h1 | h1, h2⟩)
        · exact Or.inl (Or.inl h)
        · exact Or.inl (Or.inr h1)
        · exact Or.inr ⟨h1, h2⟩
    · have hstep : audienceStep rules e acc b = acc := by
        unfold audienceStep
        rw [if_neg hb1, if_neg hb2, if_neg hb3]
      rw [hstep]
      simp only [List.mem_cons]
      constructor
      · rintro (h | ⟨h1, h2⟩)
        · exact Or.inl h
        · exact Or.inr ⟨Or.inr h1, h2⟩
      · rintro (h | ⟨h1 | h1, h2⟩)
        · exact Or.inl h
        · subst h1
          rcases h2 with h | h | h
          · exact absurd h hb1
          · exact absurd h hb2
          · exact absurd h hb3
        · exact Or.inr ⟨h1, h2⟩

/-- The folded output dict keeps its keys distinct. -/
lemma foldl_nodup (rules : RulesTable) (e : Event) :
    ∀ (l : List String) (acc : List (String × String)),
      (acc.map Prod.fst).Nodup →
      ((l.foldl (audienceStep rules e) acc).map Prod.fst).Nodup := by
  intro l
  induction l with
  | nil =>
    intro acc h
    simpa using h
  | cons b t ih =>
    intro acc h
    rw [List.foldl_cons]
    apply ih
    unfold audienceStep
    by_cases hb1 : b = "passenger"
    · rw [if_pos hb1]
      exact nodup_keys_dictSet _ _ _ h
    rw [if_neg hb1]
    by_cases hb2 : b = "pilot"
    · rw [if_pos hb2]
      exact nodup_keys_dictSet _ _ _ h
    rw [if_neg hb2]
    by_cases hb3 : b = "staff"
    · rw [if_pos hb3]
      exact nodup_keys_dictSet _ _ _ h
    · rw [if_neg hb3]
      exact h

/-- Every entry of the folded output dict carries the message the source
computes for its key. -/
lemma foldl_entries (rules : RulesTable) (e : Event) :
    ∀ (l : List String) (acc : List (String × String)),
      (∀ q ∈ acc, q.2 = audienceMsg rules e q.1) →
      ∀ q ∈ l.foldl (audienceStep rules e) acc, q.2 = audienceMsg rules e q.1 := by
  intro l
  induction l with
  | nil =>
    intro acc h
    simpa using h
  | cons b t ih =>
    intro acc h
    rw [List.foldl_cons]
    apply ih
    intro q hq
    unfold audienceStep at hq
    by_cases hb1 : b = "passenger"
    · rw [if_pos hb1] at hq
      rcases mem_dictSet_cases hq with h2 | h2
      · exact h q h2
      · rw [h2, hb1]
        simp [audienceMsg]
    rw [if_neg hb1] at hq
    by_cases hb2 : b = "pilot"
    · rw [if_pos hb2] at hq
      rcases mem_dictSet_cases hq with h2 | h2
      · exact h q h2
      · rw [h2, hb2]
        simp [audienceMsg]
    rw [if_neg hb2] at hq
    by_cases hb3 : b = "staff"
    · rw [if_pos hb3] at hq
      rcases mem_dictSet_cases hq with h2 | h2
      · exact h q h2
      · rw [h2, hb3]
        simp [audienceMsg]
    · rw [if_neg hb3] at hq
      exact h q hq

/-- C1 counterexample: on an event whose `audiences` key is present and
holds the empty list, the generator returns the empty mapping, not a
mapping with all three keys. -/
theorem audience_keys_exact_cex :
    evEmptyAud.audiences = some [] ∧ generate_messages evEmptyAud = [] ∧
    "passenger" ∉ (generate_messages evEmptyAud).map Prod.fst := by
  decide

/-- C1 (amended): the result mapping contains exactly the keys of the
requested audiences, each at most once and each mapped to its message
string; when the `audiences` key is absent the result contains all three
keys; an explicitly supplied empty audiences list yields an empty result
(covered by the second conjunct at `l = []`). -/
theorem audience_keys_exact (e : Event) :
    (e.audiences = none →
      generate_messages e =
        [("passenger", passenger_msg RULES e), ("pilot", pilot_msg RULES e),
         ("staff", staff_msg RULES e)]) ∧
    (∀ l, e.audiences = some l → (∀ a ∈ l, isAud a) →
      ((generate_messages e).map Prod.fst).Nodup ∧
      (∀ a, a ∈ (generate_messages e).map Prod.fst ↔ a ∈ l) ∧
      (∀ q ∈ generate_messages e, q.2 = audienceMsg RULES e q.1)) := by
  constructor
  · intro h
    unfold generate_messages generate_messages_impl
    rw [h]
    rfl
  · intro l hl hval
    have hgen : generate_messages e = l.foldl (audienceStep RULES e) [] := by
      unfold generate_messages generate_messages_impl
      rw [hl]
      rfl
    refine ⟨?_, ?_, ?_⟩
    · rw [hgen]
      exact foldl_nodup RULES e l [] (by simp)
    · intro a
      rw [hgen, foldl_mem_keys]
      constructor
      · rintro (h | ⟨h1, _⟩)
        · simp at h
        · exact h1
      · intro h
        exact Or.inr ⟨h, hval a h⟩
    · rw [hgen]
      exact foldl_entries RULES e l [] (by simp)

/-- C1 witness: a concrete event requesting only the passenger audience
yields exactly the key "passenger". -/
theorem audience_keys_exact_witness :
    ∀ a, a ∈ (generate_messages evOnePass).map Prod.fst ↔ a ∈ ["passenger"] :=
  ((audience_keys_exact evOnePass).2 ["passenger"] rfl (by decide)).2.1

/-- C2: a falsy ETA field puts the literal "TBD" into all three generated
messages; a positive ETA `n` puts the literal decimal rendering of `n`
followed by " minutes" into all three generated messages. -/
theorem eta_rendering (e : Event) :
    ((e.eta_change_minutes = none ∨ e.eta_change_minutes = some 0) →
      strContains (passenger_msg RULES e) "TBD" = true ∧
      strContains (pilot_msg RULES e) "TBD" = true ∧
      strContains (staff_msg RULES e) "TBD" = true) ∧
    (∀ n : Int, e.eta_change_minutes = some n → 0 < n →
      strContains (passenger_msg RULES e) (toString n ++ " minutes") = true ∧
      strContains (pilot_msg RULES e) (toString n ++ " minutes") = true ∧
      strContains (staff_msg RULES e) (toString n ++ " minutes") = true) := by
  constructor
  · intro h
    have he := eta_strOf_tbd h
    refine ⟨?_, ?_, ?_⟩
    · rw [passenger_msg_eq, ← he]
      exact passenger_contains_eta RULES e
    · rw [pilot_msg_eq, ← he]
      exact pilot_contains_eta RULES e
    · rw [staff_msg_eq, ← he]
      exact staff_contains_eta RULES e
  · intro n hn hpos
    have he := eta_strOf_val hn hpos.ne'
    refine ⟨?_, ?_, ?_⟩
    · rw [passenger_msg_eq, ← he]
      exact passenger_contains_eta RULES e
    · rw [pilot_msg_eq, ← he]
      exact pilot_contains_eta RULES e
    · rw [staff_msg_eq, ← he]
      exact staff_contains_eta RULES e

/-- C2 witness: concrete events with an absent ETA and with ETA 7. -/
theorem eta_rendering_witness :
    strContains (passenger_msg RULES evEtaW) "TBD" = true ∧
    strContains (pilot_msg RULES evEtaPosW) (toString (7 : Int) ++ " minutes") = true :=
  ⟨((eta_rendering evEtaW).1 (Or.inl rfl)).1,
   ((eta_rendering evEtaPosW).2 7 rfl (by decide)).2.1⟩

/-- C3 counterexample: for the unconfigured event type "volcano" the phrase
list is empty, yet the phrase slot at position 0 of the passenger message
renders the non-empty fallback "an operational delay" — which appears in
the message — rather than an empty string. -/
theorem unknown_event_type_cex :
    passenger_p RULES evUnknown = [] ∧
    _safe (passenger_p RULES evUnknown) 0 "an operational delay" =
      "an operational delay" ∧
    "an operational delay" ≠ "" ∧
    strContains (passenger_msg RULES evUnknown) "an operational delay" = true := by
  decide

/-- C3 (amended): an unconfigured event type makes all three phrase lists
empty; phrase positions accessed with an empty default render as empty
strings, while the four positions given explicit fallback text render that
fallback. -/
theorem unknown_event_type (e : Event) (h1 : etypeOf e ≠ "weather")
    (h2 : etypeOf e ≠ "runway") (h3 : etypeOf e ≠ "technical") :
    passenger_p RULES e = [] ∧ pilot_p RULES e = [] ∧ staff_p RULES e = [] ∧
    _safe (passenger_p RULES e) 1 "" = "" ∧
    _safe (passenger_p RULES e) 2 "" = "" ∧
    _safe (pilot_p RULES e) 1 "" = "" ∧
    _safe (passenger_p RULES e) 0 "an operational delay" =
      "an operational delay" ∧
    _safe (pilot_p RULES e) 0 "operational delay in effect" =
      "operational delay in effect" ∧
    _safe (staff_p RULES e) 0 "coordinate impacted teams" =
      "coordinate impacted teams" ∧
    _safe (staff_p RULES e) 1 "notify affected parties" =
      "notify affected parties" := by
  have h0 : dget RULES.event_types (etypeOf e) ([] : TypeEntry) = [] :=
    dget_RULES_none h1 h2 h3
  have hp : phrasesOf RULES e = [] := by
    unfold phrasesOf
    rw [h0]
    rfl
  have hpa : passenger_p RULES e = [] := by
    unfold passenger_p
    rw [hp]
    rfl
  have hpi : pilot_p RULES e = [] := by
    unfold pilot_p
    rw [hp]
    rfl
  have hst : staff_p RULES e = [] := by
    unfold staff_p
    rw [hp]
    rfl
  rw [hpa, hpi, hst]
  decide

/-- C3 witness: an event with no `event_type` key resolves to the empty
type string, which is unconfigured. -/
theorem unknown_event_type_witness :
    pilot_p RULES evUnknownAbsent = [] :=
  (unknown_event_type evUnknownAbsent (by decide) (by decide) (by decide)).2.1

/-- C4: for a supported event type and a non-empty flight number, each of
the three audience messages is non-empty and contains the flight number. -/
theorem flight_no_in_messages (e : Event) (s : String)
    (_ht : e.event_type = some "weather" ∨ e.event_type = some "runway" ∨
          e.event_type = some "technical")
    (hf : e.flight_no = some s) (hs : s ≠ "") :
    (passenger_msg RULES e ≠ "" ∧ strContains (passenger_msg RULES e) s = true) ∧
    (pilot_msg RULES e ≠ "" ∧ strContains (pilot_msg RULES e) s = true) ∧
    (staff_msg RULES e ≠ "" ∧ strContains (staff_msg RULES e) s = true) := by
  have hfs : flight_noStr e = s := by
    unfold flight_noStr
    rw [hf]
    exact orFalsy_some _ hs
  refine ⟨⟨passenger_msg_ne RULES e, ?_⟩, ⟨pilot_msg_ne e, ?_⟩,
          ⟨staff_msg_ne RULES e, ?_⟩⟩
  · rw [passenger_msg_eq, ← hfs]
    exact passenger_contains_flight RULES e
  · rw [pilot_msg_eq, ← hfs]
    exact pilot_contains_flight RULES e
  · rw [staff_msg_eq, ← hfs]
    exact staff_contains_flight RULES e

/-- C4 witness: a concrete runway event with flight number QF-7. -/
theorem flight_no_in_messages_witness :
    strContains (passenger_msg RULES evFlightW) "QF-7" = true :=
  ((flight_no_in_messages evFlightW "QF-7" (Or.inr (Or.inl rfl)) rfl
    (by decide)).1).2

/-- C5: absent or empty display fields are replaced by the fixed
placeholders the source hard-codes, and an absent severity by "medium";
these resolved strings are exactly what the three message bodies embed. -/
theorem placeholder_substitution (e : Event) :
    ((e.flight_no = none ∨ e.flight_no = some "") → flight_noStr e = "N/A") ∧
    ((e.destination = none ∨ e.destination = some "") →
      destStr e = "your destination") ∧
    ((e.gate = none ∨ e.gate = some "") → gateStr e = "the assigned gate") ∧
    ((e.runway = none ∨ e.runway = some "") → runwayStr e = "TBD") ∧
    ((e.notes = none ∨ e.notes = some "") → notesStr e = "N/A") ∧
    (e.severity = none → severityStr e = "medium") :=
  ⟨fun h => orFalsy_dflt h _, fun h => orFalsy_dflt h _,
   fun h => orFalsy_dflt h _, fun h => orFalsy_dflt h _,
   fun h => orFalsy_dflt h _, fun h => orFalsy_dflt (Or.inl h) _⟩

/-- C5 witness: all placeholders at once on an event with every optional
field absent. -/
theorem placeholder_substitution_witness :
    flight_noStr evNoneW = "N/A" ∧ destStr evNoneW = "your destination" ∧
    gateStr evNoneW = "the assigned gate" ∧ runwayStr evNoneW = "TBD" ∧
    notesStr evNoneW = "N/A" ∧ severityStr evNoneW = "medium" := by
  have h := placeholder_substitution evNoneW
  exact ⟨h.1 (Or.inl rfl), h.2.1 (Or.inl rfl), h.2.2.1 (Or.inl rfl),
         h.2.2.2.1 (Or.inl rfl), h.2.2.2.2.1 (Or.inl rfl), h.2.2.2.2.2 rfl⟩

/-- C6: a phrase lookup at a position at or beyond the end of the list
returns the supplied default — the empty string for the empty default —
instead of failing. -/
theorem safe_index_default (lst : List String) (idx : Nat)
    (h : lst.length ≤ idx) :
    _safe lst idx "" = "" ∧ ∀ d, _safe lst idx d = d := by
  have hn : lst.get? idx = none := List.get?_eq_none.mpr h
  constructor
  · unfold _safe
    rw [hn]
    rfl
  · intro d
    unfold _safe
    rw [hn]
    rfl

/-- C6 witness: position 3 of a one-element phrase list. -/
theorem safe_index_default_witness :
    _safe ["alpha"] 3 "" = "" ∧ ∀ d, _safe ["alpha"] 3 d = d :=
  safe_index_default ["alpha"] 3 (by decide)

/-- C7: the specification's example event yields a "passenger" entry whose
message contains "AI-320", "BOM", "45 minutes" and "A7". -/
theorem weather_example :
    "passenger" ∈ (generate_messages ev7).map Prod.fst ∧
    strContains (dget (generate_messages ev7) "passenger" "") "AI-320" = true ∧
    strContains (dget (generate_messages ev7) "passenger" "") "BOM" = true ∧
    strContains (dget (generate_messages ev7) "passenger" "") "45 minutes" = true ∧
    strContains (dget (generate_messages ev7) "passenger" "") "A7" = true := by
  decide

/-- C8: the generator is deterministic — two calls on an identical event
and rule table produce identical output mappings. -/
theorem generator_deterministic (rules1 rules2 : RulesTable) (e1 e2 : Event)
    (hr : rules1 = rules2) (he : e1 = e2) :
    generate_messages_impl rules1 e1 = generate_messages_impl rules2 e2 := by
  rw [hr, he]

/-- C8 witness: two calls on a concrete event. -/
theorem generator_deterministic_witness :
    generate_messages_impl RULES evDetW = generate_messages_impl RULES evDetW :=
  generator_deterministic RULES RULES evDetW evDetW rfl rfl

/-- C9: the generator has no side effects — in the state-passing embedding
of a call, the rule table and the event come back unchanged next to the
fresh output. -/
theorem generator_no_side_effects (rules : RulesTable) (e : Event) :
    (generate_call rules e).2.1 = rules ∧ (generate_call rules e).2.2 = e :=
  ⟨rfl, rfl⟩

/-- C10: the result's keys are distinct and always drawn from the three
audience names; any other string in the audiences list is skipped. -/
theorem output_keys_subset (e : Event) :
    ((generate_messages e).map Prod.fst).Nodup ∧
    ∀ a ∈ (generate_messages e).map Prod.fst, isAud a := by
  have hgen : generate_messages e =
      (e.audiences.getD ["passenger", "pilot", "staff"]).foldl
        (audienceStep RULES e) [] := rfl
  constructor
  · rw [hgen]
    exact foldl_nodup RULES e _ [] (by simp)
  · intro a ha
    rw [hgen, foldl_mem_keys] at ha
    rcases ha with h | ⟨_, h2⟩
    · simp at h
    · exact h2

/-- C10 witness: an audiences list with a junk entry and a repeat still
yields only audience-name keys. -/
theorem output_keys_subset_witness : isAud "staff" :=
  (output_keys_subset evStaffW).2 "staff" (by decide)
